import Mathlib

set_option maxRecDepth 8192

/-
Verification of the `rust_voicecode` repository (PTI voice-pick-code checksum).

The repository contains two revisions of the same module:
  * `src/lib.rs`        - hard-coded 256-entry CRC table, inverted GTIN length check;
  * `src/voicecode.rs`  - table built by `create_crc_lut(40961)`, strict GTIN check.
They are embedded below in the namespaces `Lib` and `Voicecode`.

Modelling conventions:
  * A Rust `&str` is modelled as a `List Char` of its Unicode scalar values
    (this is what `str::chars` iterates).
  * Rust `str::len` (the UTF-8 byte count) is modelled by `strLen`, the length
    of the UTF-8 encoding of the character list.
  * Rust `u16` arithmetic is modelled on `Nat`; every accumulator stays below
    2 ^ 16 (proved where needed), and the `ch as u16` cast is `% 65536`.
  * `Result<T, &'static str>` is modelled as `Except String T` carrying the
    exact source error messages.
-/

/-- Unicode scalar-value ranges of general categories Nd, Nl and No
(Unicode 14.0.0), as inclusive `(lo, hi)` pairs.  This is the character set
accepted by Rust's `char::is_numeric`, which the source calls in its date and
GTIN validations. -/
def numericRanges : List (Nat × Nat) := [
  (48, 57), (178, 179), (185, 185), (188, 190), (1632, 1641), (1776, 1785),
  (1984, 1993), (2406, 2415), (2534, 2543), (2548, 2553), (2662, 2671), (2790, 2799),
  (2918, 2927), (2930, 2935), (3046, 3058), (3174, 3183), (3192, 3198), (3302, 3311),
  (3416, 3422), (3430, 3448), (3558, 3567), (3664, 3673), (3792, 3801), (3872, 3891),
  (4160, 4169), (4240, 4249), (4969, 4988), (5870, 5872), (6112, 6121), (6128, 6137),
  (6160, 6169), (6470, 6479), (6608, 6618), (6784, 6793), (6800, 6809), (6992, 7001),
  (7088, 7097), (7232, 7241), (7248, 7257), (8304, 8304), (8308, 8313), (8320, 8329),
  (8528, 8578), (8581, 8585), (9312, 9371), (9450, 9471), (10102, 10131), (11517, 11517),
  (12295, 12295), (12321, 12329), (12344, 12346), (12690, 12693), (12832, 12841), (12872, 12879),
  (12881, 12895), (12928, 12937), (12977, 12991), (42528, 42537), (42726, 42735), (43056, 43061),
  (43216, 43225), (43264, 43273), (43472, 43481), (43504, 43513), (43600, 43609), (44016, 44025),
  (65296, 65305), (65799, 65843), (65856, 65912), (65930, 65931), (66273, 66299), (66336, 66339),
  (66369, 66369), (66378, 66378), (66513, 66517), (66720, 66729), (67672, 67679), (67705, 67711),
  (67751, 67759), (67835, 67839), (67862, 67867), (68028, 68029), (68032, 68047), (68050, 68095),
  (68160, 68168), (68221, 68222), (68253, 68255), (68331, 68335), (68440, 68447), (68472, 68479),
  (68521, 68527), (68858, 68863), (68912, 68921), (69216, 69246), (69405, 69414), (69457, 69460),
  (69573, 69579), (69714, 69743), (69872, 69881), (69942, 69951), (70096, 70105), (70113, 70132),
  (70384, 70393), (70736, 70745), (70864, 70873), (71248, 71257), (71360, 71369), (71472, 71483),
  (71904, 71922), (72016, 72025), (72784, 72812), (73040, 73049), (73120, 73129), (73664, 73684),
  (74752, 74862), (92768, 92777), (92864, 92873), (93008, 93017), (93019, 93025), (93824, 93846),
  (119520, 119539), (119648, 119672), (120782, 120831), (123200, 123209), (123632, 123641), (125127, 125135),
  (125264, 125273), (126065, 126123), (126125, 126127), (126129, 126132), (126209, 126253), (126255, 126269),
  (127232, 127244), (130032, 130041)
]

/-- Model of Rust `char::is_numeric`: the character's general category is one
of the number categories Nd, Nl, No (table `numericRanges`). -/
def Char.is_numeric (c : Char) : Bool :=
  numericRanges.any (fun p => p.1 ≤ c.toNat && c.toNat ≤ p.2)

/-- Standard UTF-8 encoding of one Unicode scalar value, as its list of bytes.
This matches what Rust's `String`/`&str` store, so `str::len` is the length of
the concatenated encoding. -/
def utf8EncodeChar (c : Char) : List Nat :=
  let n := c.toNat
  if n < 128 then [n]
  else if n < 2048 then [192 + n / 64, 128 + n % 64]
  else if n < 65536 then [224 + n / 4096, 128 + n / 64 % 64, 128 + n % 64]
  else [240 + n / 262144, 128 + n / 4096 % 64, 128 + n / 64 % 64, 128 + n % 64]

/-- UTF-8 byte sequence of a character list. -/
def utf8Bytes : List Char → List Nat
  | [] => []
  | c :: rest => utf8EncodeChar c ++ utf8Bytes rest

/-- Model of Rust `str::len`: the UTF-8 byte count. -/
def strLen (s : List Char) : Nat := (utf8Bytes s).length

/-- One shift-and-conditional-XOR round of the reflected CRC construction
(spec §4.1: `if value & 1 == 1 { value = (value >> 1) ^ polynomial } else
{ value = value >> 1 }`). -/
def crcStep (poly v : Nat) : Nat :=
  if v &&& 1 = 1 then (v >>> 1) ^^^ poly else v >>> 1

/-- `n` rounds of `crcStep`. -/
def crcRounds (poly : Nat) : Nat → Nat → Nat
  | 0, v => v
  | n + 1, v => crcRounds poly n (crcStep poly v)

/-- Modelled from the spec: the repository's `create_crc_lut` module is
imported by `src/voicecode.rs` (`use crate::create_crc_lut::create_crc_lut`)
but its source file is not part of the given sources.  Spec §4.1 specifies it
exactly: for each index `i` in `0..256`, run 8 shift-and-conditional-XOR
rounds over `i` with the given 16-bit polynomial. -/
def create_crc_lut (poly : Nat) : List Nat :=
  (List.range 256).map (fun i => crcRounds poly 8 i)

/-- The byte-wise table-driven fold exactly as written in
`generate_voice_code_hash` (both revisions):
`output = (output >> 8) ^ T[((output ^ (ch as u16)) % 256) as usize]`,
over the already-extracted scalar values of the input characters.
The index is always below 256 and the table has 256 entries, so the `getD`
default is never used. -/
def foldCode (t : List Nat) (acc : Nat) : List Nat → Nat
  | [] => acc
  | b :: rest => foldCode t ((acc >>> 8) ^^^ t.getD ((acc ^^^ b % 65536) % 256) 0) rest

/-- The spec's `hash_fold` (§4.2), stated over a byte sequence:
`index = (accumulator XOR b) mod 256; accumulator = (accumulator >> 8) XOR
table[index]`.  Kept separate from `foldCode` because the code folds over
characters, not UTF-8 bytes; the two are compared in claim C1. -/
def hash_fold_spec (t : List Nat) (acc : Nat) : List Nat → Nat
  | [] => acc
  | b :: rest => hash_fold_spec t ((acc >>> 8) ^^^ t.getD ((acc ^^^ b) % 256) 0) rest

/-- `format!("{:04}", d % 10000)`: the 4-character left-zero-padded decimal
rendering of `d % 10000`. -/
def format_voice_code (d : Nat) : List Char :=
  let m := d % 10000
  [Char.ofNat (48 + m / 1000), Char.ofNat (48 + m / 100 % 10),
   Char.ofNat (48 + m / 10 % 10), Char.ofNat (48 + m % 10)]

/-- Character class of `LOT_REGEX`, transcribed member by member from the
pattern `^[\!"%&'()\*\+,\-\./0-9:;<=>\?A-Z_a-z]{1,20}$`. -/
def lotChar (c : Char) : Bool :=
  c = '!' || c = '"' || c = '%' || c = '&' || c = '\'' || c = '(' || c = ')' ||
  c = '*' || c = '+' || c = ',' || c = '-' || c = '.' || c = '/' ||
  ('0' ≤ c && c ≤ '9') || c = ':' || c = ';' || c = '<' || c = '=' ||
  c = '>' || c = '?' || ('A' ≤ c && c ≤ 'Z') || c = '_' ||
  ('a' ≤ c && c ≤ 'z')

/-- ASCII digit `'0'..'9'`, the character class used by the spec's wording
("entirely ASCII digits"). -/
def isAsciiDigit (c : Char) : Bool := decide (48 ≤ c.toNat) && decide (c.toNat ≤ 57)

/-- The spec's `validate_date_component` (§4.2), transcribed from its words:
true iff the string has length 1 or 2 and is entirely ASCII digits.  Kept
separate from the code's check (which uses Rust `char::is_numeric` and the
UTF-8 byte length) so the two can be compared. -/
def validate_date_component (s : List Char) : Bool :=
  (decide (s.length = 1) || decide (s.length = 2)) && s.all isAsciiDigit

/-- The LOT character set as the spec words it: ASCII letters, ASCII digits,
underscore, and the punctuation set `! " % & ' ( ) * + , - . / : ; < = > ?`. -/
def lotCharSpec (c : Char) : Bool :=
  ('A' ≤ c && c ≤ 'Z') || ('a' ≤ c && c ≤ 'z') || ('0' ≤ c && c ≤ '9') ||
  c = '_' || c = '!' || c = '"' || c = '%' || c = '&' || c = '\'' || c = '(' ||
  c = ')' || c = '*' || c = '+' || c = ',' || c = '-' || c = '.' || c = '/' ||
  c = ':' || c = ';' || c = '<' || c = '=' || c = '>' || c = '?'

/-- The fields of the `HashVoiceCode` struct (identical in both revisions). -/
structure HashVoiceCode where
  hash_text : List Char
  gtin : List Char
  lot : List Char
  pack_date : List Char
  voice_code : List Char
  voice_code_major : List Char
  voice_code_minor : List Char
  deriving DecidableEq

/-- `format!("{:0>2}", s)`: left-pad the string to two characters with `'0'`. -/
def pad2 (s : List Char) : List Char := List.replicate (2 - s.length) '0' ++ s

/-- Error message for an invalid YY component (source text). -/
def errYY : String := "Date component YY must be numeric and 1 or 2 digits"

/-- Error message for an invalid MM component (source text). -/
def errMM : String := "Date component MM must be numeric and 1 or 2 digits"

/-- Error message for an invalid DD component (source text). -/
def errDD : String := "Date component DD must be numeric and 1 or 2 digits"

/-- Error message for an invalid LOT (source text). -/
def errLOT : String :=
  "LOT must be alphanumeric and/or !, \", %, &, ', (, ), *, +, -, ., /, :, ;, <, =, >, ?, _ and comma"

/-- Error message for an invalid GTIN (source text). -/
def errGTIN : String := "GTIN must be numeric 14 digits"

namespace Voicecode

/-- `src/voicecode.rs`: `HASH_VOICE_CHECKSUM_HASH_T = create_crc_lut(40961)`. -/
def HASH_VOICE_CHECKSUM_HASH_T : List Nat := create_crc_lut 40961

/-- `src/voicecode.rs` `validate_lot`: `LOT_REGEX.is_match(lot)` where the
anchored pattern `^[...]{1,20}$` matches exactly the strings of 1 to 20
characters drawn from the class `lotChar`. -/
def validate_lot (lot : List Char) : Bool :=
  decide (1 ≤ lot.length) && decide (lot.length ≤ 20) && lot.all lotChar

/-- `src/voicecode.rs` `validate_gtin`:
`gtin.chars().all(char::is_numeric) && (gtin.len() == 8 || gtin.len() == 12 || gtin.len() == 13 || gtin.len() == 14)`. -/
def validate_gtin (gtin : List Char) : Bool :=
  gtin.all Char.is_numeric &&
    (decide (strLen gtin = 8) || decide (strLen gtin = 12) ||
     decide (strLen gtin = 13) || decide (strLen gtin = 14))

/-- `src/voicecode.rs` `generate_voice_code_hash`. -/
def generate_voice_code_hash (input : List Char) : List Char :=
  format_voice_code (foldCode HASH_VOICE_CHECKSUM_HASH_T 0 (input.map Char.toNat))

/-- `src/voicecode.rs` `generate_voice_code_text`. -/
def generate_voice_code_text (gtin lot yy mm dd : List Char) : List Char :=
  gtin ++ lot ++ pad2 yy ++ pad2 mm ++ pad2 dd

/-- `src/voicecode.rs` `HashVoiceCode::new`.  The five validations run in
source order; on success the record is built with `hash_text` concatenating
the raw (unpadded) date strings, `pack_date` the padded ones, and the voice
code split as `voice_code[..2]` / `voice_code[2..]` (the voice code is always
4 ASCII characters, so Rust's byte slicing is character slicing). -/
def new (gtin lot yy mm dd : List Char) : Except String HashVoiceCode :=
  if ¬ yy.all Char.is_numeric = true ∨ 2 < strLen yy ∨ strLen yy < 1 then .error errYY
  else if ¬ mm.all Char.is_numeric = true ∨ 2 < strLen mm ∨ strLen mm < 1 then .error errMM
  else if ¬ dd.all Char.is_numeric = true ∨ 2 < strLen dd ∨ strLen dd < 1 then .error errDD
  else if ¬ validate_lot lot = true then .error errLOT
  else if ¬ validate_gtin gtin = true then .error errGTIN
  else
    let hash_text := gtin ++ lot ++ yy ++ mm ++ dd
    let voice_code := generate_voice_code_hash hash_text
    .ok ⟨hash_text, gtin, lot, pad2 yy ++ pad2 mm ++ pad2 dd,
         voice_code, voice_code.drop 2, voice_code.take 2⟩

end Voicecode

namespace Lib

/-- `src/lib.rs`: the hard-coded constant `HASH_VOICE_CHECKSUM_HASH_T`. -/
def HASH_VOICE_CHECKSUM_HASH_T : List Nat := [
  0x0000, 0xc0c1, 0xc181, 0x0140, 0xc301, 0x03c0, 0x0280, 0xc241, 0xc601, 0x06c0, 0x0780, 0xc741, 0x0500, 0xc5c1, 0xc481, 0x0440,
  0xcc01, 0x0cc0, 0x0d80, 0xcd41, 0x0f00, 0xcfc1, 0xce81, 0x0e40, 0x0a00, 0xcac1, 0xcb81, 0x0b40, 0xc901, 0x09c0, 0x0880, 0xc841,
  0xd801, 0x18c0, 0x1980, 0xd941, 0x1b00, 0xdbc1, 0xda81, 0x1a40, 0x1e00, 0xdec1, 0xdf81, 0x1f40, 0xdd01, 0x1dc0, 0x1c80, 0xdc41,
  0x1400, 0xd4c1, 0xd581, 0x1540, 0xd701, 0x17c0, 0x1680, 0xd641, 0xd201, 0x12c0, 0x1380, 0xd341, 0x1100, 0xd1c1, 0xd081, 0x1040,
  0xf001, 0x30c0, 0x3180, 0xf141, 0x3300, 0xf3c1, 0xf281, 0x3240, 0x3600, 0xf6c1, 0xf781, 0x3740, 0xf501, 0x35c0, 0x3480, 0xf441,
  0x3c00, 0xfcc1, 0xfd81, 0x3d40, 0xff01, 0x3fc0, 0x3e80, 0xfe41, 0xfa01, 0x3ac0, 0x3b80, 0xfb41, 0x3900, 0xf9c1, 0xf881, 0x3840,
  0x2800, 0xe8c1, 0xe981, 0x2940, 0xeb01, 0x2bc0, 0x2a80, 0xea41, 0xee01, 0x2ec0, 0x2f80, 0xef41, 0x2d00, 0xedc1, 0xec81, 0x2c40,
  0xe401, 0x24c0, 0x2580, 0xe541, 0x2700, 0xe7c1, 0xe681, 0x2640, 0x2200, 0xe2c1, 0xe381, 0x2340, 0xe101, 0x21c0, 0x2080, 0xe041,
  0xa001, 0x60c0, 0x6180, 0xa141, 0x6300, 0xa3c1, 0xa281, 0x6240, 0x6600, 0xa6c1, 0xa781, 0x6740, 0xa501, 0x65c0, 0x6480, 0xa441,
  0x6c00, 0xacc1, 0xad81, 0x6d40, 0xaf01, 0x6fc0, 0x6e80, 0xae41, 0xaa01, 0x6ac0, 0x6b80, 0xab41, 0x6900, 0xa9c1, 0xa881, 0x6840,
  0x7800, 0xb8c1, 0xb981, 0x7940, 0xbb01, 0x7bc0, 0x7a80, 0xba41, 0xbe01, 0x7ec0, 0x7f80, 0xbf41, 0x7d00, 0xbdc1, 0xbc81, 0x7c40,
  0xb401, 0x74c0, 0x7580, 0xb541, 0x7700, 0xb7c1, 0xb681, 0x7640, 0x7200, 0xb2c1, 0xb381, 0x7340, 0xb101, 0x71c0, 0x7080, 0xb041,
  0x5000, 0x90c1, 0x9181, 0x5140, 0x9301, 0x53c0, 0x5280, 0x9241, 0x9601, 0x56c0, 0x5780, 0x9741, 0x5500, 0x95c1, 0x9481, 0x5440,
  0x9c01, 0x5cc0, 0x5d80, 0x9d41, 0x5f00, 0x9fc1, 0x9e81, 0x5e40, 0x5a00, 0x9ac1, 0x9b81, 0x5b40, 0x9901, 0x59c0, 0x5880, 0x9841,
  0x8801, 0x48c0, 0x4980, 0x8941, 0x4b00, 0x8bc1, 0x8a81, 0x4a40, 0x4e00, 0x8ec1, 0x8f81, 0x4f40, 0x8d01, 0x4dc0, 0x4c80, 0x8c41,
  0x4400, 0x84c1, 0x8581, 0x4540, 0x8701, 0x47c0, 0x4680, 0x8641, 0x8201, 0x42c0, 0x4380, 0x8341, 0x4100, 0x81c1, 0x8081, 0x4040
]

/-- `src/lib.rs` `validate_gtin`:
`gtin.chars().all(char::is_numeric) || gtin.len() != 14`. -/
def validate_gtin (gtin : List Char) : Bool :=
  gtin.all Char.is_numeric || decide (strLen gtin ≠ 14)

/-- `src/lib.rs` `generate_voice_code_hash` (same fold, hard-coded table). -/
def generate_voice_code_hash (input : List Char) : List Char :=
  format_voice_code (foldCode HASH_VOICE_CHECKSUM_HASH_T 0 (input.map Char.toNat))

end Lib

/-- The record produced by `Voicecode.new` on the reference vector
(GTIN 12345678901244, LOT LOT123, date 03/01/02); used by evaluation
witnesses. -/
def recC8 : HashVoiceCode :=
  ⟨"12345678901244LOT123030102".toList, "12345678901244".toList, "LOT123".toList,
   "030102".toList, "6991".toList, "91".toList, "69".toList⟩

/-- The record produced by `Voicecode.new` for GTIN 61414100734933, LOT
`32abcd`, date 03/01/02. -/
def recC9a : HashVoiceCode :=
  ⟨"6141410073493332abcd030102".toList, "61414100734933".toList, "32abcd".toList,
   "030102".toList, "8079".toList, "79".toList, "80".toList⟩

/-- The record produced by `Voicecode.new` for GTIN 61414100734933, LOT
`32ABCD`, date 03/01/02. -/
def recC9b : HashVoiceCode :=
  ⟨"6141410073493332ABCD030102".toList, "61414100734933".toList, "32ABCD".toList,
   "030102".toList, "7732".toList, "32".toList, "77".toList⟩

/-- The record produced by `Voicecode.new` for GTIN 61414100734933, LOT
`32ABCD`, date 01/01/01. -/
def recC10 : HashVoiceCode :=
  ⟨"6141410073493332ABCD010101".toList, "61414100734933".toList, "32ABCD".toList,
   "010101".toList, "1085".toList, "85".toList, "10".toList⟩


theorem shiftRight_xor (a b n : Nat) : (a ^^^ b) >>> n = (a >>> n) ^^^ (b >>> n) := by
  apply Nat.eq_of_testBit_eq
  intro i
  simp [Nat.testBit_shiftRight, Nat.testBit_xor]

theorem mod_two_pow_xor (a b k : Nat) : (a % 2 ^ k) ^^^ (b % 2 ^ k) = (a ^^^ b) % 2 ^ k := by
  apply Nat.eq_of_testBit_eq
  intro i
  simp only [Nat.testBit_mod_two_pow, Nat.testBit_xor]
  by_cases h : i < k <;> simp [h]

theorem xor_xor_comm (w x y z : Nat) : (w ^^^ x) ^^^ (y ^^^ z) = (w ^^^ y) ^^^ (x ^^^ z) := by
  apply Nat.eq_of_testBit_eq
  intro i
  simp only [Nat.testBit_xor]
  cases w.testBit i <;> cases x.testBit i <;> cases y.testBit i <;> cases z.testBit i <;> rfl

theorem crcStep_xor (p a b : Nat) : crcStep p (a ^^^ b) = crcStep p a ^^^ crcStep p b := by
  unfold crcStep
  have hab : (a ^^^ b) &&& 1 = (a &&& 1) ^^^ (b &&& 1) := Nat.and_xor_distrib_right
  have hsr : (a ^^^ b) >>> 1 = (a >>> 1) ^^^ (b >>> 1) := shiftRight_xor a b 1
  rcases Nat.mod_two_eq_zero_or_one a with hA | hA <;>
    rcases Nat.mod_two_eq_zero_or_one b with hB | hB <;>
      simp_all [Nat.and_one_is_mod] <;>
        (apply Nat.eq_of_testBit_eq; intro i; simp only [Nat.testBit_xor];
         cases p.testBit i <;> cases (a >>> 1).testBit i <;> cases (b >>> 1).testBit i <;> rfl)

theorem crcRounds_xor (p n a b : Nat) :
    crcRounds p n (a ^^^ b) = crcRounds p n a ^^^ crcRounds p n b := by
  induction n generalizing a b with
  | zero => rfl
  | succ k IH => simp [crcRounds, crcStep_xor, IH]


theorem lut_getD (i : Nat) (h : i < 256) :
    Voicecode.HASH_VOICE_CHECKSUM_HASH_T.getD i 0 = crcRounds 40961 8 i := by
  simp [Voicecode.HASH_VOICE_CHECKSUM_HASH_T, create_crc_lut,
    List.getD_eq_getElem?_getD, List.getElem?_map, List.getElem?_range h]

theorem lut_getD_xor (i j : Nat) (hi : i < 256) (hj : j < 256) :
    Voicecode.HASH_VOICE_CHECKSUM_HASH_T.getD i 0 ^^^ Voicecode.HASH_VOICE_CHECKSUM_HASH_T.getD j 0
      = Voicecode.HASH_VOICE_CHECKSUM_HASH_T.getD (i ^^^ j) 0 := by
  have h256 : (256 : Nat) = 2 ^ 8 := by norm_num
  have hij : i ^^^ j < 256 := by
    rw [h256] at hi hj ⊢
    exact Nat.xor_lt_two_pow hi hj
  rw [lut_getD i hi, lut_getD j hj, lut_getD _ hij, ← crcRounds_xor]

theorem lut_getD_lt (i : Nat) : Voicecode.HASH_VOICE_CHECKSUM_HASH_T.getD i 0 < 65536 := by
  by_cases h : i < 256
  · exact (by decide : ∀ j : Nat, j < 256 → Voicecode.HASH_VOICE_CHECKSUM_HASH_T.getD j 0 < 65536) i h
  · rw [List.getD_eq_default]
    · norm_num
    · have hlen : Voicecode.HASH_VOICE_CHECKSUM_HASH_T.length = 256 := by
        simp [Voicecode.HASH_VOICE_CHECKSUM_HASH_T, create_crc_lut]
      omega

theorem mod65536_xor (a b : Nat) : (a % 65536) ^^^ (b % 65536) = (a ^^^ b) % 65536 := by
  have h : (65536 : Nat) = 2 ^ 16 := by norm_num
  rw [h]
  exact mod_two_pow_xor a b 16

theorem mod256_xor (a b : Nat) : (a % 256) ^^^ (b % 256) = (a ^^^ b) % 256 := by
  have h : (256 : Nat) = 2 ^ 8 := by norm_num
  rw [h]
  exact mod_two_pow_xor a b 8

theorem foldStep_xor (a b c d : Nat) :
    ((a >>> 8) ^^^ Voicecode.HASH_VOICE_CHECKSUM_HASH_T.getD ((a ^^^ c % 65536) % 256) 0) ^^^
      ((b >>> 8) ^^^ Voicecode.HASH_VOICE_CHECKSUM_HASH_T.getD ((b ^^^ d % 65536) % 256) 0)
      = ((a ^^^ b) >>> 8) ^^^
          Voicecode.HASH_VOICE_CHECKSUM_HASH_T.getD (((a ^^^ b) ^^^ (c ^^^ d) % 65536) % 256) 0 := by
  rw [xor_xor_comm, ← shiftRight_xor,
    lut_getD_xor _ _ (Nat.mod_lt _ (by norm_num)) (Nat.mod_lt _ (by norm_num)),
    mod256_xor, xor_xor_comm, mod65536_xor]

theorem foldCode_xor :
    ∀ (l1 l2 : List Nat), l1.length = l2.length → ∀ a b : Nat,
      foldCode Voicecode.HASH_VOICE_CHECKSUM_HASH_T a l1 ^^^
        foldCode Voicecode.HASH_VOICE_CHECKSUM_HASH_T b l2
        = foldCode Voicecode.HASH_VOICE_CHECKSUM_HASH_T (a ^^^ b) (List.zipWith (· ^^^ ·) l1 l2)
  | [], [], _, a, b => rfl
  | c :: r1, d :: r2, h, a, b => by
      have hlen : r1.length = r2.length := by simpa using h
      simp only [foldCode, List.zipWith]
      rw [foldCode_xor r1 r2 hlen, foldStep_xor]

theorem foldCode_append (t : List Nat) (l1 l2 : List Nat) :
    ∀ a : Nat, foldCode t a (l1 ++ l2) = foldCode t (foldCode t a l1) l2 := by
  induction l1 with
  | nil => intro a; rfl
  | cons c r IH => intro a; simp only [List.cons_append, foldCode]; exact IH _

theorem zipWith_xor_self : ∀ l : List Nat, List.zipWith (· ^^^ ·) l l = List.replicate l.length 0
  | [] => rfl
  | c :: r => by simp [List.zipWith, List.replicate, zipWith_xor_self r]

theorem foldCode_zero_replicate (l : List Nat) :
    ∀ n : Nat, foldCode Voicecode.HASH_VOICE_CHECKSUM_HASH_T 0 (List.replicate n 0 ++ l)
      = foldCode Voicecode.HASH_VOICE_CHECKSUM_HASH_T 0 l := by
  intro n
  induction n with
  | zero => rfl
  | succ k IH =>
      have h0 : (0 >>> 8) ^^^ Voicecode.HASH_VOICE_CHECKSUM_HASH_T.getD ((0 ^^^ 0 % 65536) % 256) 0
          = 0 := by decide
      simp only [List.replicate, List.cons_append, foldCode, h0]
      exact IH

theorem foldCode_lt :
    ∀ (l : List Nat) (a : Nat), a < 65536 →
      foldCode Voicecode.HASH_VOICE_CHECKSUM_HASH_T a l < 65536
  | [], _, h => h
  | c :: r, a, h => by
      apply foldCode_lt r
      have h1 : a >>> 8 < 65536 := by
        have := Nat.shiftRight_eq_div_pow a 8
        omega
      have h2 := lut_getD_lt ((a ^^^ c % 65536) % 256)
      have h16 : (65536 : Nat) = 2 ^ 16 := by norm_num
      rw [h16] at h1 h2 ⊢
      exact Nat.xor_lt_two_pow h1 h2

theorem and_mod_two (x y : Nat) : (x &&& y) % 2 = (x % 2) &&& (y % 2) := by
  rw [← Nat.and_one_is_mod, ← Nat.and_one_is_mod, ← Nat.and_one_is_mod]
  apply Nat.eq_of_testBit_eq
  intro i
  simp only [Nat.testBit_and]
  cases x.testBit i <;> cases y.testBit i <;> cases (1 : Nat).testBit i <;> rfl

theorem shiftRight_and (a b n : Nat) : (a &&& b) >>> n = (a >>> n) &&& (b >>> n) := by
  apply Nat.eq_of_testBit_eq
  intro i
  simp [Nat.testBit_shiftRight, Nat.testBit_and]

theorem add_eq_xor_add_two_and (x : Nat) : ∀ y : Nat, x + y = (x ^^^ y) + 2 * (x &&& y) := by
  induction x using Nat.div2Induction with
  | ind x IH =>
    intro y
    rcases Nat.eq_zero_or_pos x with hx | hx
    · subst hx; simp
    · have IH2 := IH hx (y / 2)
      have hone : (1 : Nat) >>> 1 = 0 := rfl
      have hxor2 : (x ^^^ y) / 2 = x / 2 ^^^ y / 2 := by
        have := shiftRight_xor x y 1
        simpa [Nat.shiftRight_succ, Nat.shiftRight_zero] using this
      have hand2 : (x &&& y) / 2 = x / 2 &&& y / 2 := by
        have := shiftRight_and x y 1
        simpa [Nat.shiftRight_succ, Nat.shiftRight_zero] using this
      have hxorm : (x ^^^ y) % 2 = (x % 2) ^^^ (y % 2) := by
        rw [← Nat.and_one_is_mod, ← Nat.and_one_is_mod, ← Nat.and_one_is_mod,
          Nat.and_xor_distrib_right]
      have handm : (x &&& y) % 2 = (x % 2) &&& (y % 2) := and_mod_two x y
      have hsmall : (x % 2) + (y % 2) = ((x % 2) ^^^ (y % 2)) + 2 * ((x % 2) &&& (y % 2)) := by
        rcases Nat.mod_two_eq_zero_or_one x with h | h <;>
          rcases Nat.mod_two_eq_zero_or_one y with h' | h' <;> rw [h, h'] <;> rfl
      omega

theorem no_collision_odd (D : Nat) (hD : D % 2 = 1) (x : Nat) :
    x % 10000 ≠ (x ^^^ D) % 10000 := by
  intro hc
  have hkey := add_eq_xor_add_two_and x D
  omega

theorem no_collision_42412 (x : Nat) : x % 10000 ≠ (x ^^^ 42412) % 10000 := by
  intro hc
  have hkey := add_eq_xor_add_two_and x 42412
  have hle : x &&& 42412 ≤ 42412 := Nat.and_le_right
  have hsub : (x &&& 42412) &&& 42412 = x &&& 42412 := by
    rw [Nat.and_assoc, Nat.and_self]
  have hm : x &&& 42412 = 1206 ∨ x &&& 42412 = 6206 ∨ x &&& 42412 = 11206 ∨
      x &&& 42412 = 16206 ∨ x &&& 42412 = 21206 ∨ x &&& 42412 = 26206 ∨
      x &&& 42412 = 31206 ∨ x &&& 42412 = 36206 ∨ x &&& 42412 = 41206 := by
    omega
  rcases hm with h | h | h | h | h | h | h | h | h <;> rw [h] at hsub <;>
    exact absurd hsub (by decide)


theorem digitChar_inj : ∀ a : Nat, a < 10 → ∀ b : Nat, b < 10 →
    Char.ofNat (48 + a) = Char.ofNat (48 + b) → a = b := by decide

theorem format_voice_code_mod (d1 d2 : Nat)
    (h : format_voice_code d1 = format_voice_code d2) : d1 % 10000 = d2 % 10000 := by
  simp only [format_voice_code, List.cons.injEq, and_true] at h
  obtain ⟨e1, e2, e3, e4⟩ := h
  have b1 : d1 % 10000 / 1000 < 10 := by omega
  have b2 : d2 % 10000 / 1000 < 10 := by omega
  have q1 := digitChar_inj _ b1 _ b2 e1
  have q2 := digitChar_inj _ (by omega) _ (by omega) e2
  have q3 := digitChar_inj _ (by omega) _ (by omega) e3
  have q4 := digitChar_inj _ (by omega) _ (by omega) e4
  omega

theorem format_voice_code_ne (d1 d2 : Nat) (h : d1 % 10000 ≠ d2 % 10000) :
    format_voice_code d1 ≠ format_voice_code d2 :=
  fun he => h (format_voice_code_mod d1 d2 he)

theorem utf8EncodeChar_length_pos (c : Char) : 1 ≤ (utf8EncodeChar c).length := by
  simp only [utf8EncodeChar]
  repeat' split
  all_goals simp

theorem length_le_strLen : ∀ s : List Char, s.length ≤ strLen s
  | [] => Nat.le_refl 0
  | c :: r => by
      have h1 := utf8EncodeChar_length_pos c
      have h2 := length_le_strLen r
      simp only [strLen, utf8Bytes, List.length_append, List.length_cons] at *
      omega

theorem strLen_ascii : ∀ s : List Char, (∀ c ∈ s, c.toNat < 128) → strLen s = s.length
  | [], _ => rfl
  | c :: r, h => by
      have hc : c.toNat < 128 := h c (List.mem_cons_self c r)
      have hr := strLen_ascii r (fun x hx => h x (List.mem_cons_of_mem c hx))
      simp only [strLen, utf8Bytes, List.length_append, List.length_cons] at *
      rw [utf8EncodeChar, if_pos hc]
      simp only [List.length_append, List.length_cons, List.length_nil]
      omega

theorem new_ok_spec (g l y m d : List Char) (r : HashVoiceCode)
    (h : Voicecode.new g l y m d = .ok r) :
    r.voice_code = Voicecode.generate_voice_code_hash (g ++ l ++ y ++ m ++ d) ∧
    r.voice_code_minor = r.voice_code.take 2 ∧
    r.voice_code_major = r.voice_code.drop 2 := by
  simp only [Voicecode.new] at h
  split_ifs at h
  simp only [Except.ok.injEq] at h
  subst h
  exact ⟨rfl, rfl, rfl⟩

theorem new_ok_dates (g l y m d : List Char) (r : HashVoiceCode)
    (h : Voicecode.new g l y m d = .ok r) :
    (y.all Char.is_numeric = true ∧ 1 ≤ strLen y ∧ strLen y ≤ 2) ∧
    (m.all Char.is_numeric = true ∧ 1 ≤ strLen m ∧ strLen m ≤ 2) ∧
    (d.all Char.is_numeric = true ∧ 1 ≤ strLen d ∧ strLen d ≤ 2) := by
  simp only [Voicecode.new] at h
  split_ifs at h with h1 h2 h3 h4 h5
  push_neg at h1 h2 h3
  exact ⟨⟨h1.1, h1.2.2, h1.2.1⟩, ⟨h2.1, h2.2.2, h2.2.1⟩, ⟨h3.1, h3.2.2, h3.2.1⟩⟩

theorem chars_len_of_strLen (s : List Char) (h1 : 1 ≤ strLen s) (h2 : strLen s ≤ 2) :
    1 ≤ s.length ∧ s.length ≤ 2 := by
  have hne : s ≠ [] := by
    intro he
    rw [he] at h1
    exact absurd h1 (by decide)
  have hpos : 0 < s.length := List.length_pos.mpr hne
  have hle := length_le_strLen s
  omega

theorem digests_xor (g y m d : List Char) :
    foldCode Voicecode.HASH_VOICE_CHECKSUM_HASH_T 0
        ((g ++ "32abcd".toList ++ y ++ m ++ d).map Char.toNat) ^^^
      foldCode Voicecode.HASH_VOICE_CHECKSUM_HASH_T 0
        ((g ++ "32ABCD".toList ++ y ++ m ++ d).map Char.toNat)
      = foldCode Voicecode.HASH_VOICE_CHECKSUM_HASH_T 4626
          (List.replicate (y.length + m.length + d.length) 0) := by
  rw [show g ++ "32abcd".toList ++ y ++ m ++ d
      = g ++ "32abcd".toList ++ (y ++ m ++ d) by simp [List.append_assoc]]
  rw [show g ++ "32ABCD".toList ++ y ++ m ++ d
      = g ++ "32ABCD".toList ++ (y ++ m ++ d) by simp [List.append_assoc]]
  rw [foldCode_xor _ _ (by simp)]
  simp only [List.map_append]
  rw [List.zipWith_append _ _ _ _ _ (by simp),
    List.zipWith_append _ _ _ _ _ (by simp)]
  rw [zipWith_xor_self, zipWith_xor_self]
  rw [show List.zipWith (· ^^^ ·) ("32abcd".toList.map Char.toNat)
      ("32ABCD".toList.map Char.toNat) = [0, 0, 32, 32, 32, 32] from by decide]
  rw [Nat.xor_self, List.append_assoc, foldCode_zero_replicate, foldCode_append]
  rw [show foldCode Voicecode.HASH_VOICE_CHECKSUM_HASH_T 0 [0, 0, 32, 32, 32, 32] = 4626 from by decide]
  simp [List.length_append, Nat.add_assoc]

theorem numeric_ascii_nat : ∀ n : Nat, n < 128 →
    (numericRanges.any (fun p => p.1 ≤ n && n ≤ p.2))
      = (decide (48 ≤ n) && decide (n ≤ 57)) := by decide

theorem is_numeric_ascii (c : Char) (h : c.toNat < 128) :
    Char.is_numeric c = isAsciiDigit c :=
  numeric_ascii_nat c.toNat h

theorem all_numeric_ascii : ∀ s : List Char, (∀ c ∈ s, c.toNat < 128) →
    s.all Char.is_numeric = s.all isAsciiDigit
  | [], _ => rfl
  | c :: r, h => by
      simp only [List.all_cons]
      rw [is_numeric_ascii c (h c (List.mem_cons_self c r)),
        all_numeric_ascii r (fun x hx => h x (List.mem_cons_of_mem c hx))]

theorem date_cond_iff (s : List Char) (h : ∀ c ∈ s, c.toNat < 128) :
    (¬ s.all Char.is_numeric = true ∨ 2 < strLen s ∨ strLen s < 1)
      ↔ validate_date_component s = false := by
  rw [strLen_ascii s h, all_numeric_ascii s h]
  simp only [validate_date_component, Bool.and_eq_false_iff, Bool.or_eq_false_iff,
    decide_eq_false_iff_not, Bool.not_eq_true]
  by_cases hA : s.all isAsciiDigit = true <;>
    (simp [hA, ← List.length_eq_zero]; try omega)

theorem char_le_iff (a c : Char) : (a ≤ c) ↔ a.toNat ≤ c.toNat := Iff.rfl

theorem char_eq_iff (a c : Char) : (a = c) ↔ a.toNat = c.toNat := by
  constructor
  · intro h; rw [h]
  · intro h
    rw [← Char.ofNat_toNat a, ← Char.ofNat_toNat c, h]

theorem lotChar_eq_spec (c : Char) : lotChar c = lotCharSpec c := by
  rw [Bool.eq_iff_iff]
  simp only [lotChar, lotCharSpec, Bool.or_eq_true, Bool.and_eq_true,
    decide_eq_true_eq, char_eq_iff, char_le_iff, show ('!').toNat = 33 from rfl,
    show ('"').toNat = 34 from rfl,
    show ('%').toNat = 37 from rfl,
    show ('&').toNat = 38 from rfl,
    show ('\'').toNat = 39 from rfl,
    show ('(').toNat = 40 from rfl,
    show (')').toNat = 41 from rfl,
    show ('*').toNat = 42 from rfl,
    show ('+').toNat = 43 from rfl,
    show (',').toNat = 44 from rfl,
    show ('-').toNat = 45 from rfl,
    show ('.').toNat = 46 from rfl,
    show ('/').toNat = 47 from rfl,
    show (':').toNat = 58 from rfl,
    show (';').toNat = 59 from rfl,
    show ('<').toNat = 60 from rfl,
    show ('=').toNat = 61 from rfl,
    show ('>').toNat = 62 from rfl,
    show ('?').toNat = 63 from rfl,
    show ('_').toNat = 95 from rfl,
    show ('0').toNat = 48 from rfl,
    show ('9').toNat = 57 from rfl,
    show ('A').toNat = 65 from rfl,
    show ('Z').toNat = 90 from rfl,
    show ('a').toNat = 97 from rfl,
    show ('z').toNat = 122 from rfl]
  omega

theorem generate_voice_code_hash_length (s : List Char) :
    (Voicecode.generate_voice_code_hash s).length = 4 := by
  simp [Voicecode.generate_voice_code_hash, format_voice_code]

theorem tables_eq : Voicecode.HASH_VOICE_CHECKSUM_HASH_T = Lib.HASH_VOICE_CHECKSUM_HASH_T := by
  decide


theorem foldCode_eq_spec_ascii :
    ∀ (s : List Char) (a : Nat), (∀ c ∈ s, c.toNat < 128) →
      foldCode Voicecode.HASH_VOICE_CHECKSUM_HASH_T a (s.map Char.toNat)
        = hash_fold_spec Voicecode.HASH_VOICE_CHECKSUM_HASH_T a (utf8Bytes s)
  | [], _, _ => rfl
  | c :: r, a, h => by
      have hc : c.toNat < 128 := h c (List.mem_cons_self c r)
      have hx : c.toNat % 65536 = c.toNat := Nat.mod_eq_of_lt (by omega)
      simp only [List.map_cons, foldCode, utf8Bytes, utf8EncodeChar, if_pos hc,
        List.cons_append, List.nil_append, hash_fold_spec, hx]
      exact foldCode_eq_spec_ascii r _ (fun x hx2 => h x (List.mem_cons_of_mem c hx2))

/-- C1, counterexample.  The claim describes the digest as a fold over the
bytes of the input.  The code folds over the characters (`input.chars()`,
cast `as u16`), which differs from the UTF-8 byte fold on the non-ASCII
input `"é"`: the code yields "6545" while the byte fold yields "6496". -/
theorem c1_counterexample :
    Voicecode.generate_voice_code_hash ['é']
      ≠ format_voice_code
          (hash_fold_spec Voicecode.HASH_VOICE_CHECKSUM_HASH_T 0 (utf8Bytes ['é'])) := by
  decide

/-- C1, amended.  For every input string of ASCII characters,
`generate_voice_code_hash` returns the 4-character left-zero-padded decimal
rendering of (digest mod 10000), where digest is the spec's byte-wise fold
(accumulator 0; index = (acc XOR b) mod 256; acc = (acc >> 8) XOR
table[index]) over the input's UTF-8 bytes.  (For non-ASCII input the code
folds over characters instead of bytes, see `c1_counterexample`.) -/
theorem c1_hash_byte_fold_ascii (s : List Char) (h : ∀ c ∈ s, c.toNat < 128) :
    Voicecode.generate_voice_code_hash s
      = format_voice_code
          (hash_fold_spec Voicecode.HASH_VOICE_CHECKSUM_HASH_T 0 (utf8Bytes s)) := by
  unfold Voicecode.generate_voice_code_hash
  rw [foldCode_eq_spec_ascii s 0 h]

/-- C1, witness: the amended theorem applied to the reference canonical text,
whose characters are all ASCII. -/
theorem c1_witness :
    Voicecode.generate_voice_code_hash "12345678901244LOT123030102".toList
      = format_voice_code (hash_fold_spec Voicecode.HASH_VOICE_CHECKSUM_HASH_T 0
          (utf8Bytes "12345678901244LOT123030102".toList)) :=
  c1_hash_byte_fold_ascii _ (by decide)

/-- C2, counterexample.  The claim asserts the two tables are materially
different hash functions, i.e. some input byte string gets different
digests.  In fact no such input exists: the table built by
`create_crc_lut 40961` is identical to the hard-coded table of `src/lib.rs`. -/
theorem c2_counterexample :
    ¬ ∃ l : List Nat,
        hash_fold_spec Lib.HASH_VOICE_CHECKSUM_HASH_T 0 l
          ≠ hash_fold_spec Voicecode.HASH_VOICE_CHECKSUM_HASH_T 0 l := by
  rintro ⟨l, hne⟩
  exact hne (by rw [tables_eq])

/-- C2, amended.  The dynamically built table `create_crc_lut 40961` equals
the hard-coded table entry for entry (40961 = 0xA001, the reflected
CRC-16/ARC polynomial, whose standard table the constant transcribes), so
the two hash folds agree on every input byte string. -/
theorem c2_tables_agree :
    Voicecode.HASH_VOICE_CHECKSUM_HASH_T = Lib.HASH_VOICE_CHECKSUM_HASH_T ∧
    ∀ l : List Nat,
      hash_fold_spec Lib.HASH_VOICE_CHECKSUM_HASH_T 0 l
        = hash_fold_spec Voicecode.HASH_VOICE_CHECKSUM_HASH_T 0 l :=
  ⟨tables_eq, fun _ => by rw [tables_eq]⟩

/-- C3.  The reference vector: GTIN "12345678901244", LOT "LOT123",
YY "03", MM "01", DD "02" succeeds and yields voice code "6991". -/
theorem c3_reference_vector :
    (Voicecode.new "12345678901244".toList "LOT123".toList "03".toList "01".toList
        "02".toList).toOption.map (fun r => r.voice_code) = some "6991".toList := by
  decide

/-- C4.  At the failing input (GTIN "12345678901244", LOT "LOT123"), the
calls with date components "1","2","3" and "01","02","03" both succeed but
hash different texts: `new` concatenates the raw, unpadded date strings
into `hash_text` (the padded forms go only into `pack_date`), so the codes
are "3226" and "7047" — the claim's padding idempotence fails. -/
theorem c4_raw_date_hash_divergence :
    (Voicecode.new "12345678901244".toList "LOT123".toList "1".toList "2".toList
        "3".toList).toOption.map (fun r => (r.hash_text, r.voice_code))
      = some ("12345678901244LOT123123".toList, "3226".toList) ∧
    (Voicecode.new "12345678901244".toList "LOT123".toList "01".toList "02".toList
        "03".toList).toOption.map (fun r => (r.hash_text, r.voice_code))
      = some ("12345678901244LOT123010203".toList, "7047".toList) := by
  decide

/-- C5, counterexample.  The claim says `validate_gtin` is true iff every
character is an ASCII digit and the length is 8, 12, 13 or 14.  The code
uses Rust `char::is_numeric` (any Unicode number category) and the UTF-8
byte length: four ARABIC-INDIC DIGIT THREE characters (U+0663, 2 bytes
each) are accepted (byte length 8) though none is an ASCII digit and the
character count is 4. -/
theorem c5_counterexample :
    Voicecode.validate_gtin "٣٣٣٣".toList = true ∧
    ¬ ("٣٣٣٣".toList.all isAsciiDigit = true ∧
        ("٣٣٣٣".toList.length = 8 ∨ "٣٣٣٣".toList.length = 12 ∨
          "٣٣٣٣".toList.length = 13 ∨ "٣٣٣٣".toList.length = 14)) := by
  decide

/-- C5, amended.  On ASCII strings (where Rust `char::is_numeric` is
exactly the ASCII digits and the byte length is the character count),
`validate_gtin` of `src/voicecode.rs` is true iff every character is an
ASCII digit and the length is one of 8, 12, 13, 14.  (The `src/lib.rs`
revision instead computes `all numeric || len != 14`.) -/
theorem c5_validate_gtin_ascii (s : List Char) (h : ∀ c ∈ s, c.toNat < 128) :
    Voicecode.validate_gtin s = true ↔
      (s.all isAsciiDigit = true ∧
        (s.length = 8 ∨ s.length = 12 ∨ s.length = 13 ∨ s.length = 14)) := by
  unfold Voicecode.validate_gtin
  rw [strLen_ascii s h, all_numeric_ascii s h]
  simp only [Bool.and_eq_true, Bool.or_eq_true, decide_eq_true_eq, List.all_eq_true]
  constructor
  · rintro ⟨h1, h2⟩
    exact ⟨h1, by omega⟩
  · rintro ⟨h1, h2⟩
    exact ⟨h1, by omega⟩

/-- C5, witness: the amended equivalence applied to the all-ASCII string
"12345678901244". -/
theorem c5_witness :
    Voicecode.validate_gtin "12345678901244".toList = true ↔
      ("12345678901244".toList.all isAsciiDigit = true ∧
        ("12345678901244".toList.length = 8 ∨ "12345678901244".toList.length = 12 ∨
          "12345678901244".toList.length = 13 ∨ "12345678901244".toList.length = 14)) :=
  c5_validate_gtin_ascii _ (by decide)

/-- C6, counterexample.  The claim says `new` returns the year-specific
error exactly when yy is not a string of 1 or 2 ASCII digits.  With
yy = "٣" (ARABIC-INDIC DIGIT THREE: not an ASCII digit, but Unicode-numeric
and 2 UTF-8 bytes long) the call succeeds with voice code "3982" instead of
returning the year error. -/
theorem c6_counterexample :
    validate_date_component "٣".toList = false ∧
    (Voicecode.new "61414100734933".toList "LOT1".toList "٣".toList "01".toList
        "02".toList).toOption.map (fun r => r.voice_code) = some "3982".toList := by
  decide

/-- C6, amended.  For ASCII arguments, `new` returns the year-specific
error exactly when yy fails `validate_date_component` (length 1 or 2, all
ASCII digits), the month-specific error exactly when yy passes and mm
fails, and the day-specific error exactly when yy and mm pass and dd
fails: the components are checked in the order yy, mm, dd before the LOT
and GTIN checks and the first failure is returned immediately (no record
is constructed on an error). -/
theorem c6_date_error_order (g l y m d : List Char)
    (hy : ∀ c ∈ y, c.toNat < 128) (hm : ∀ c ∈ m, c.toNat < 128)
    (hd : ∀ c ∈ d, c.toNat < 128) :
    (Voicecode.new g l y m d = .error errYY ↔ validate_date_component y = false) ∧
    (Voicecode.new g l y m d = .error errMM ↔
      validate_date_component y = true ∧ validate_date_component m = false) ∧
    (Voicecode.new g l y m d = .error errDD ↔
      validate_date_component y = true ∧ validate_date_component m = true ∧
        validate_date_component d = false) := by
  have hyv := date_cond_iff y hy
  have hmv := date_cond_iff m hm
  have hdv := date_cond_iff d hd
  by_cases h1 : (¬ y.all Char.is_numeric = true ∨ 2 < strLen y ∨ strLen y < 1)
  · have hnew : Voicecode.new g l y m d = .error errYY := by
      simp only [Voicecode.new, if_pos h1]
    have hvy : validate_date_component y = false := hyv.mp h1
    rw [hnew]
    refine ⟨by simp [hvy], ?_, ?_⟩ <;>
      simp [Except.error.injEq, show errYY ≠ errMM from by decide,
        show errYY ≠ errDD from by decide, hvy]
  · have hvy : validate_date_component y = true := by
      cases hb : validate_date_component y
      · exact absurd (hyv.mpr hb) h1
      · rfl
    by_cases h2 : (¬ m.all Char.is_numeric = true ∨ 2 < strLen m ∨ strLen m < 1)
    · have hnew : Voicecode.new g l y m d = .error errMM := by
        simp only [Voicecode.new, if_neg h1, if_pos h2]
      have hvm : validate_date_component m = false := hmv.mp h2
      rw [hnew]
      refine ⟨?_, by simp [hvy, hvm], ?_⟩ <;>
        simp [Except.error.injEq, show errMM ≠ errYY from by decide,
          show errMM ≠ errDD from by decide, hvy, hvm]
    · have hvm : validate_date_component m = true := by
        cases hb : validate_date_component m
        · exact absurd (hmv.mpr hb) h2
        · rfl
      by_cases h3 : (¬ d.all Char.is_numeric = true ∨ 2 < strLen d ∨ strLen d < 1)
      · have hnew : Voicecode.new g l y m d = .error errDD := by
          simp only [Voicecode.new, if_neg h1, if_neg h2, if_pos h3]
        have hvd : validate_date_component d = false := hdv.mp h3
        rw [hnew]
        refine ⟨?_, ?_, by simp [hvy, hvm, hvd]⟩ <;>
          simp [Except.error.injEq, show errDD ≠ errYY from by decide,
            show errDD ≠ errMM from by decide, hvy, hvm, hvd]
      · have hvd : validate_date_component d = true := by
          cases hb : validate_date_component d
          · exact absurd (hdv.mpr hb) h3
          · rfl
        by_cases h4 : ¬ Voicecode.validate_lot l = true
        · have hnew : Voicecode.new g l y m d = .error errLOT := by
            simp only [Voicecode.new, if_neg h1, if_neg h2, if_neg h3, if_pos h4]
          rw [hnew]
          refine ⟨?_, ?_, ?_⟩ <;>
            simp [Except.error.injEq, show errLOT ≠ errYY from by decide,
              show errLOT ≠ errMM from by decide, show errLOT ≠ errDD from by decide,
              hvy, hvm, hvd]
        · by_cases h5 : ¬ Voicecode.validate_gtin g = true
          · have hnew : Voicecode.new g l y m d = .error errGTIN := by
              simp only [Voicecode.new, if_neg h1, if_neg h2, if_neg h3, if_neg h4, if_pos h5]
            rw [hnew]
            refine ⟨?_, ?_, ?_⟩ <;>
              simp [Except.error.injEq, show errGTIN ≠ errYY from by decide,
                show errGTIN ≠ errMM from by decide, show errGTIN ≠ errDD from by decide,
                hvy, hvm, hvd]
          · have hnew : Voicecode.new g l y m d
                = .ok ⟨g ++ l ++ y ++ m ++ d, g, l, pad2 y ++ pad2 m ++ pad2 d,
                    Voicecode.generate_voice_code_hash (g ++ l ++ y ++ m ++ d),
                    (Voicecode.generate_voice_code_hash (g ++ l ++ y ++ m ++ d)).drop 2,
                    (Voicecode.generate_voice_code_hash (g ++ l ++ y ++ m ++ d)).take 2⟩ := by
              simp only [Voicecode.new, if_neg h1, if_neg h2, if_neg h3, if_neg h4, if_neg h5]
            rw [hnew]
            refine ⟨?_, ?_, ?_⟩ <;> simp [hvy, hvm, hvd]

/-- C6, witness: the amended characterization applied to concrete ASCII
inputs with an invalid year component "ab". -/
theorem c6_witness :
    (Voicecode.new "61414100734933".toList "LOT1".toList "ab".toList "01".toList
        "02".toList = .error errYY ↔ validate_date_component "ab".toList = false) ∧
    (Voicecode.new "61414100734933".toList "LOT1".toList "ab".toList "01".toList
        "02".toList = .error errMM ↔
      validate_date_component "ab".toList = true ∧
        validate_date_component "01".toList = false) ∧
    (Voicecode.new "61414100734933".toList "LOT1".toList "ab".toList "01".toList
        "02".toList = .error errDD ↔
      validate_date_component "ab".toList = true ∧
        validate_date_component "01".toList = true ∧
          validate_date_component "02".toList = false) :=
  c6_date_error_order "61414100734933".toList "LOT1".toList "ab".toList "01".toList
    "02".toList (by decide) (by decide) (by decide)

/-- C7.  `validate_lot` is true iff the string is 1 to 20 characters long
and every character is an ASCII letter, an ASCII digit, an underscore, or
one of the punctuation characters listed by the spec. -/
theorem c7_validate_lot_charset (s : List Char) :
    Voicecode.validate_lot s = true ↔
      (1 ≤ s.length ∧ s.length ≤ 20 ∧ ∀ c ∈ s, lotCharSpec c = true) := by
  unfold Voicecode.validate_lot
  have hall : s.all lotChar = s.all lotCharSpec := by
    induction s with
    | nil => rfl
    | cons c r IH => simp only [List.all_cons, lotChar_eq_spec, IH]
  rw [hall]
  simp [Bool.and_eq_true, decide_eq_true_eq, List.all_eq_true, and_assoc]

/-- C8.  Every record returned by a successful `new` has a voice code split
into 2-character minor and major halves whose concatenation (minor first,
the code's fixed convention) reconstructs the 4-character voice code; each
half is a contiguous substring of the voice code. -/
theorem c8_split_invariant (g l y m d : List Char) (r : HashVoiceCode)
    (h : Voicecode.new g l y m d = .ok r) :
    r.voice_code_minor.length = 2 ∧ r.voice_code_major.length = 2 ∧
    r.voice_code_minor ++ r.voice_code_major = r.voice_code ∧
    (∃ u v, u ++ r.voice_code_minor ++ v = r.voice_code) ∧
    (∃ u v, u ++ r.voice_code_major ++ v = r.voice_code) := by
  obtain ⟨hv, hmin, hmaj⟩ := new_ok_spec g l y m d r h
  have h4 : r.voice_code.length = 4 := by
    rw [hv]; exact generate_voice_code_hash_length _
  have htd : r.voice_code.take 2 ++ r.voice_code.drop 2 = r.voice_code :=
    List.take_append_drop 2 _
  refine ⟨?_, ?_, ?_, ?_, ?_⟩
  · rw [hmin, List.length_take, h4]
    decide
  · rw [hmaj, List.length_drop, h4]
  · rw [hmin, hmaj]; exact htd
  · exact ⟨[], r.voice_code.drop 2, by rw [hmin]; simp [htd]⟩
  · exact ⟨r.voice_code.take 2, [], by rw [hmaj]; simp [htd]⟩

/-- C8, witness: the split invariant on the reference record. -/
theorem c8_witness :
    recC8.voice_code_minor.length = 2 ∧ recC8.voice_code_major.length = 2 ∧
    recC8.voice_code_minor ++ recC8.voice_code_major = recC8.voice_code ∧
    (∃ u v, u ++ recC8.voice_code_minor ++ v = recC8.voice_code) ∧
    (∃ u v, u ++ recC8.voice_code_major ++ v = recC8.voice_code) :=
  c8_split_invariant "12345678901244".toList "LOT123".toList "03".toList "01".toList
    "02".toList recC8 (by rfl)

/-- C9.  For every GTIN and date components on which both calls succeed,
the voice code for LOT "32abcd" differs from the voice code for LOT
"32ABCD": the canonical texts differ in exactly four characters by 0x20,
the resulting 16-bit digests differ by one of four fixed nonzero values
(one per possible raw-date length), and none of those differences can
vanish modulo 10000. -/
theorem c9_case_sensitivity (g y m d : List Char) (r1 r2 : HashVoiceCode)
    (h1 : Voicecode.new g "32abcd".toList y m d = .ok r1)
    (h2 : Voicecode.new g "32ABCD".toList y m d = .ok r2) :
    r1.voice_code ≠ r2.voice_code := by
  obtain ⟨hv1, -, -⟩ := new_ok_spec _ _ _ _ _ _ h1
  obtain ⟨hv2, -, -⟩ := new_ok_spec _ _ _ _ _ _ h2
  obtain ⟨⟨-, hy1, hy2⟩, ⟨-, hm1, hm2⟩, ⟨-, hd1, hd2⟩⟩ := new_ok_dates _ _ _ _ _ _ h1
  obtain ⟨hyl, hyu⟩ := chars_len_of_strLen y hy1 hy2
  obtain ⟨hml, hmu⟩ := chars_len_of_strLen m hm1 hm2
  obtain ⟨hdl, hdu⟩ := chars_len_of_strLen d hd1 hd2
  rw [hv1, hv2]
  unfold Voicecode.generate_voice_code_hash
  apply format_voice_code_ne
  have hgoal := digests_xor g y m d
  set D1 := foldCode Voicecode.HASH_VOICE_CHECKSUM_HASH_T 0
      ((g ++ "32abcd".toList ++ y ++ m ++ d).map Char.toNat) with hD1def
  set D2 := foldCode Voicecode.HASH_VOICE_CHECKSUM_HASH_T 0
      ((g ++ "32ABCD".toList ++ y ++ m ++ d).map Char.toNat) with hD2def
  have hD2 : D2 = D1 ^^^ foldCode Voicecode.HASH_VOICE_CHECKSUM_HASH_T 4626
      (List.replicate (y.length + m.length + d.length) 0) := by
    have h := congrArg (fun t => D1 ^^^ t) hgoal
    simpa [← Nat.xor_assoc] using h
  have hL : y.length + m.length + d.length = 3 ∨ y.length + m.length + d.length = 4 ∨
      y.length + m.length + d.length = 5 ∨ y.length + m.length + d.length = 6 := by omega
  rcases hL with hL | hL | hL | hL <;> rw [hL] at hD2
  · rw [hD2, show foldCode Voicecode.HASH_VOICE_CHECKSUM_HASH_T 4626 (List.replicate 3 0)
        = 42412 from by decide]
    exact no_collision_42412 D1
  · rw [hD2, show foldCode Voicecode.HASH_VOICE_CHECKSUM_HASH_T 4626 (List.replicate 4 0)
        = 32165 from by decide]
    exact no_collision_odd 32165 (by norm_num) D1
  · rw [hD2, show foldCode Voicecode.HASH_VOICE_CHECKSUM_HASH_T 4626 (List.replicate 5 0)
        = 31677 from by decide]
    exact no_collision_odd 31677 (by norm_num) D1
  · rw [hD2, show foldCode Voicecode.HASH_VOICE_CHECKSUM_HASH_T 4626 (List.replicate 6 0)
        = 29115 from by decide]
    exact no_collision_odd 29115 (by norm_num) D1

/-- C9, witness: the case-sensitivity theorem applied to GTIN
61414100734933 and date 03/01/02, where the codes are "8079" and "7732". -/
theorem c9_witness : recC9a.voice_code ≠ recC9b.voice_code :=
  c9_case_sensitivity "61414100734933".toList "03".toList "01".toList "02".toList
    recC9a recC9b (by rfl) (by rfl)

/-- C10.  The code fixes the open major/minor convention as minor-first:
every record returned by a successful `new` has a 4-character voice code
with `voice_code_minor` its first two characters (`voice_code[..2]`) and
`voice_code_major` its last two (`voice_code[2..]`). -/
theorem c10_minor_major_convention (g l y m d : List Char) (r : HashVoiceCode)
    (h : Voicecode.new g l y m d = .ok r) :
    r.voice_code.length = 4 ∧
    r.voice_code_minor = r.voice_code.take 2 ∧
    r.voice_code_major = r.voice_code.drop 2 := by
  obtain ⟨hv, hmin, hmaj⟩ := new_ok_spec g l y m d r h
  refine ⟨?_, hmin, hmaj⟩
  rw [hv]
  exact generate_voice_code_hash_length _

/-- C10, witness: the convention on the record for GTIN 61414100734933,
LOT 32ABCD, date 01/01/01 (voice code "1085", minor "10", major "85"). -/
theorem c10_witness :
    recC10.voice_code.length = 4 ∧
    recC10.voice_code_minor = recC10.voice_code.take 2 ∧
    recC10.voice_code_major = recC10.voice_code.drop 2 :=
  c10_minor_major_convention "61414100734933".toList "32ABCD".toList "01".toList
    "01".toList "01".toList recC10 (by rfl)
